import Mathlib

/-!
# Inventory dashboard: verified shallow embedding

A shallow embedding of the inventory projection core of `src/app.py`:

* the record normalizer (`load_data_from_sheets`, lines 54-61): numeric
  coercion with zero fallback, day-first date parsing with a `NaT` sentinel;
* the projection engine (`calculate_inventory`, lines 69-109): per-SKU
  day-walk with carry-forward balance, status bands, change markers and
  display strings;
* the monthly aggregator (`summary_data`, lines 175-184): per
  (description, month) minimum stock and worst status.

Modelling conventions:

* calendar dates are integers (days since 1970-01-01); Python `date` objects
  are order-isomorphic to their ordinals and `timedelta(days=1)` is `+ 1`;
* a possibly-missing date (pandas `NaT`) is `Option Int` with `none` for
  `NaT`; pandas comparisons `NaT < d` and `NaT == d` are both `False`,
  embedded in `dateLt` / `dateEq`;
* numeric cells are rationals `ℚ` (the source's floats, kept exact);
* a non-integral rational is rendered with Lean's `ToString ℚ` in place of
  Python's decimal float notation; the integral / non-integral branch
  structure of the source is preserved exactly.
-/

namespace InvDash

/-- A row of the `db_skus` table after normalization: columns
`sku_id`, `description`, `stock_on_hand`, `safety_threshold`. -/
structure SkuRow where
  sku_id : String
  description : String
  stock_on_hand : ℚ
  safety_threshold : ℚ
  deriving DecidableEq, Inhabited

/-- A row of the `db_inbound` table after normalization: columns
`sku_id`, `po_number`, `qty`, `arrival_date` (`none` = `NaT`). -/
structure InEvent where
  sku_id : String
  po_number : String
  qty : ℚ
  arrival_date : Option Int
  deriving DecidableEq, Inhabited

/-- A row of the `db_outbound` table after normalization: columns
`sku_id`, `order_number`, `qty`, `dispatch_date` (`none` = `NaT`). -/
structure OutEvent where
  sku_id : String
  order_number : String
  qty : ℚ
  dispatch_date : Option Int
  deriving DecidableEq, Inhabited

/-- The status band assigned to a projection cell. -/
inductive Status where
  | GREEN
  | AMBER
  | RED
  deriving DecidableEq, Inhabited

/-- Pandas comparison `col < d` on a date column: `NaT < d` is `False`. -/
def dateLt : Option Int → Int → Bool
  | none, _ => false
  | some x, d => x < d

/-- Pandas comparison `col == d` on a date column: `NaT == d` is `False`. -/
def dateEq : Option Int → Int → Bool
  | none, _ => false
  | some x, d => x == d

/-- `inbound[(inbound['sku_id'] == sku_id) & (inbound['arrival_date'] == d)]['qty'].sum()`
(app.py line 85). -/
def dayInSum (I : List InEvent) (sid : String) (d : Int) : ℚ :=
  ((I.filter fun e => e.sku_id == sid && dateEq e.arrival_date d).map InEvent.qty).sum

/-- `outbound[(outbound['sku_id'] == sku_id) & (outbound['dispatch_date'] == d)]['qty'].sum()`
(app.py line 86). -/
def dayOutSum (O : List OutEvent) (sid : String) (d : Int) : ℚ :=
  ((O.filter fun e => e.sku_id == sid && dateEq e.dispatch_date d).map OutEvent.qty).sum

/-- `inbound[(inbound['sku_id'] == sku_id) & (inbound['arrival_date'] < start_date)]['qty'].sum()`
(app.py line 78). -/
def pastInSum (I : List InEvent) (sid : String) (start : Int) : ℚ :=
  ((I.filter fun e => e.sku_id == sid && dateLt e.arrival_date start).map InEvent.qty).sum

/-- `outbound[(outbound['sku_id'] == sku_id) & (outbound['dispatch_date'] < start_date)]['qty'].sum()`
(app.py line 79). -/
def pastOutSum (O : List OutEvent) (sid : String) (start : Int) : ℚ :=
  ((O.filter fun e => e.sku_id == sid && dateLt e.dispatch_date start).map OutEvent.qty).sum

/-- `current_stock = sku['stock_on_hand'] + past_in - past_out` (app.py line 81):
the carry-forward balance just before the window starts. -/
def carryForward (sku : SkuRow) (I : List InEvent) (O : List OutEvent) (start : Int) : ℚ :=
  sku.stock_on_hand + pastInSum I sku.sku_id start - pastOutSum O sku.sku_id start

/-- Lines 91-93: `status = 'GREEN'; if current_stock < 0: status = 'RED';
elif current_stock < safety_stock: status = 'AMBER'`. -/
def statusOf (safety stock : ℚ) : Status :=
  if stock < 0 then Status.RED
  else if stock < safety then Status.AMBER
  else Status.GREEN

/-- Lines 95-98: the change-marker string (empty when no same-day movement). -/
def markerOf (day_in day_out : ℚ) : String :=
  if day_in > 0 ∧ day_out > 0 then "▲▼"
  else if day_in > 0 then "▲"
  else if day_out > 0 then "▼"
  else ""

/-- Line 100: `display_stock = int(current_stock) if current_stock ==
int(current_stock) else current_stock`, as rendered by the f-string.
A rational is integral exactly when its reduced denominator is 1. -/
def ratDisplay (q : ℚ) : String :=
  if q.den = 1 then toString q.num else toString q

/-- One projection cell: the dict appended to `master_grid` (lines 102-107). -/
structure Cell where
  SKU_ID : String
  Description : String
  Date : Int
  Month_Label : String
  Stock : ℚ
  Status : Status
  Marker : String
  Display : String
  deriving DecidableEq, Inhabited

/-- `m`-th month name as produced by `strftime("%B %Y")` (months 1-12). -/
def monthName (m : Int) : String :=
  if m = 1 then "January" else if m = 2 then "February" else if m = 3 then "March"
  else if m = 4 then "April" else if m = 5 then "May" else if m = 6 then "June"
  else if m = 7 then "July" else if m = 8 then "August" else if m = 9 then "September"
  else if m = 10 then "October" else if m = 11 then "November"
  else if m = 12 then "December" else ""

/-- Gregorian (year, month, day) of an epoch day number (civil-from-days). -/
def civilFromDays (z0 : Int) : Int × Int × Int :=
  let z := z0 + 719468
  let era := Int.fdiv z 146097
  let doe := z - era * 146097
  let yoe := Int.fdiv (doe - Int.fdiv doe 1460 + Int.fdiv doe 36524 - Int.fdiv doe 146096) 365
  let y := yoe + era * 400
  let doy := doe - (365 * yoe + Int.fdiv yoe 4 - Int.fdiv yoe 100)
  let mp := Int.fdiv (5 * doy + 2) 153
  let day := doy - Int.fdiv (153 * mp + 2) 5 + 1
  let m := mp + (if mp < 10 then 3 else -9)
  (y + (if m ≤ 2 then 1 else 0), m, day)

/-- Epoch day number of a Gregorian (year, month, day) (days-from-civil). -/
def daysFromCivil (y m d : Int) : Int :=
  let y1 := y - (if m ≤ 2 then 1 else 0)
  let era := Int.fdiv y1 400
  let yoe := y1 - era * 400
  let mp := if m > 2 then m - 3 else m + 9
  let doy := Int.fdiv (153 * mp + 2) 5 + d - 1
  let doe := yoe * 365 + Int.fdiv yoe 4 - Int.fdiv yoe 100 + doy
  era * 146097 + doe - 719468

/-- Line 104: `d.strftime("%B %Y")`, e.g. `"January 2025"`. -/
def monthLabel (d : Int) : String :=
  let c := civilFromDays d
  monthName c.2.1 ++ " " ++ toString c.1

/-- One iteration of the day loop (lines 85-107): the cell appended for day
`d` when the running balance entering the day is `stock`. -/
def mkCell (I : List InEvent) (O : List OutEvent) (sid desc : String)
    (safety : ℚ) (d : Int) (stock : ℚ) : Cell :=
  let day_in := dayInSum I sid d
  let day_out := dayOutSum O sid d
  let s := stock + day_in - day_out
  { SKU_ID := sid
    Description := desc
    Date := d
    Month_Label := monthLabel d
    Stock := s
    Status := statusOf safety s
    Marker := markerOf day_in day_out
    Display := ratDisplay s ++ " " ++ markerOf day_in day_out }

/-- Lines 88-89: the running balance after processing day `d`. -/
def stepStock (I : List InEvent) (O : List OutEvent) (sid : String)
    (stock : ℚ) (d : Int) : ℚ :=
  stock + dayInSum I sid d - dayOutSum O sid d

/-- The day loop `for d in date_range` (lines 84-107), running `n` more days
starting at date `d` with running balance `stock`. -/
def skuWalkAux (I : List InEvent) (O : List OutEvent) (sid desc : String)
    (safety : ℚ) : ℚ → Int → Nat → List Cell
  | _, _, 0 => []
  | stock, d, n + 1 =>
      mkCell I O sid desc safety d stock ::
        skuWalkAux I O sid desc safety (stepStock I O sid stock d) (d + 1) n

/-- Line 76: `sku['description'] if ... and sku['description'] else sku_id`:
an absent or empty description falls back to the identifier. -/
def skuDesc (sku : SkuRow) : String :=
  if sku.description = "" then sku.sku_id else sku.description

/-- The body of the per-SKU loop (lines 74-107): carry-forward balance, then
the day-walk over the window. -/
def skuWalk (I : List InEvent) (O : List OutEvent) (start : Int) (days : Nat)
    (sku : SkuRow) : List Cell :=
  skuWalkAux I O sku.sku_id (skuDesc sku) sku.safety_threshold
    (carryForward sku I O start) start days

/-- `calculate_inventory` (lines 69-109): the flat `master_grid`, one block of
`days` cells per SKU row, in the SKU table's row order. -/
def calculate_inventory (skus : List SkuRow) (I : List InEvent) (O : List OutEvent)
    (start : Int) (days : Nat) : List Cell :=
  match skus with
  | [] => []
  | s :: rest => skuWalk I O start days s ++ calculate_inventory rest I O start days

/-- The running balance after `n` iterations of the day loop starting at
date `d` with balance `stock` (the value of `current_stock` after `n` days). -/
def stockAfter (I : List InEvent) (O : List OutEvent) (sid : String) :
    ℚ → Int → Nat → ℚ
  | stock, _, 0 => stock
  | stock, d, n + 1 => stockAfter I O sid (stepStock I O sid stock d) (d + 1) n

/-- `group['Stock'].min()` (app.py line 178) over a list of stock values
(0 for an empty list; every group the source builds is non-empty). -/
def listMin : List ℚ → ℚ
  | [] => 0
  | x :: xs => xs.foldl min x

/-- The `groupby(['Description', 'Month_Label'])` key of a cell (line 175). -/
def cellKey (c : Cell) : String × String := (c.Description, c.Month_Label)

/-- One row of the monthly summary (the dict appended on line 183). `Min` is
the source's `min_stock` intermediate (line 178); `Display` renders it. -/
structure SummaryRow where
  Description : String
  Month_Label : String
  Min : ℚ
  Display : String
  Status : Status
  deriving DecidableEq, Inhabited

/-- The summary row built for one groupby key (lines 177-183): minimum stock
over the group, and the worst status with precedence RED, then AMBER. -/
def summaryRowFor (cells : List Cell) (k : String × String) : SummaryRow :=
  let g := cells.filter fun c => decide (cellKey c = k)
  let min_stock := listMin (g.map Cell.Stock)
  { Description := k.1
    Month_Label := k.2
    Min := min_stock
    Display := ratDisplay min_stock
    Status :=
      if g.any fun c => decide (c.Status = Status.RED) then Status.RED
      else if g.any fun c => decide (c.Status = Status.AMBER) then Status.AMBER
      else Status.GREEN }

/-- `summary_data` (lines 175-184): one summary row per distinct
(Description, Month_Label) key among the cells. Pandas emits the groups in
sorted key order; the development proves the key set and each row's content,
which do not depend on row order. -/
def summary_data (cells : List Cell) : List SummaryRow :=
  ((cells.map cellKey).dedup).map (summaryRowFor cells)

/-- The group of cells behind a summary row: the cells sharing the row's
(Description, Month_Label) key. -/
def summaryGroup (cells : List Cell) (r : SummaryRow) : List Cell :=
  cells.filter fun c => decide (cellKey c = (r.Description, r.Month_Label))

/-- A raw spreadsheet cell destined for a numeric column: either a value
`pd.to_numeric` parses, or unparsable noise. -/
inductive RawNum where
  | num (q : ℚ)
  | noise (s : String)
  deriving DecidableEq

/-- Whether `pd.to_numeric(·, errors='coerce')` parses the cell. -/
def RawNum.parses : RawNum → Bool
  | RawNum.num _ => true
  | RawNum.noise _ => false

/-- Lines 54-58: `pd.to_numeric(col, errors='coerce').fillna(0)` — a parsed
value passes through and an unparsable cell becomes 0, never an error. -/
def parseNumeric : RawNum → ℚ
  | RawNum.num q => q
  | RawNum.noise _ => 0

/-- A raw date cell: either three `day/month/year` components listed in the
order they are written (first component first), or unparsable noise. -/
inductive RawDate where
  | dmy (day month year : Nat)
  | noise (s : String)
  deriving DecidableEq

/-- Gregorian leap-year test. -/
def isLeap (y : Int) : Bool :=
  (y % 4 == 0 && y % 100 != 0) || y % 400 == 0

/-- Number of days in month `m` of year `y`. -/
def daysInMonth (y m : Int) : Int :=
  if m = 2 then (if isLeap y then 29 else 28)
  else if m = 4 ∨ m = 6 ∨ m = 9 ∨ m = 11 then 30
  else 31

/-- Whether day `d`, month `m`, year `y` is a real calendar date. -/
def validDMY (d m y : Nat) : Bool :=
  decide (1 ≤ m) && decide (m ≤ 12) && decide (1 ≤ d) &&
    decide ((d : Int) ≤ daysInMonth y m)

/-- Lines 60-61: `pd.to_datetime(col, dayfirst=True, errors='coerce')` — a
date string parses day-first (the FIRST component is the day of month) to
its epoch day number; anything unparsable becomes the `NaT` sentinel
(`none`). Pandas may fall back to a month-first reading when the day-first
one is invalid; such inputs are modelled as unparsable here, and no theorem
below touches them. -/
def parseDate : RawDate → Option Int
  | RawDate.dmy d m y => if validDMY d m y then some (daysFromCivil y m d) else none
  | RawDate.noise _ => none

/-- Fixture: the spec §8 scenario SKU (stock_on_hand 10, safety_threshold 5). -/
def skuA : SkuRow := ⟨"A", "Widget A", 10, 5⟩

/-- Fixture: one inbound event of qty 5 arriving on day 2. -/
def inbFix : List InEvent := [⟨"A", "PO1", 5, some 2⟩]

/-- Fixture: one outbound event of qty 8 dispatched on day 1. -/
def outFix : List OutEvent := [⟨"A", "SO1", 8, some 1⟩]

/-- Fixture: a healthy cell of SKU "A" displayed as "Widget A". -/
def cellFix1 : Cell := ⟨"A", "Widget A", 0, "January 1970", 10, Status.GREEN, "", "10 "⟩

/-- Fixture: a shortfall cell of a DIFFERENT SKU "B" sharing the display
description "Widget A" and the month — the aggregator merges it with
`cellFix1` into one summary row. -/
def cellFix2 : Cell := ⟨"B", "Widget A", 1, "January 1970", -3, Status.RED, "", "-3 "⟩

theorem stockAfter_succ (I : List InEvent) (O : List OutEvent) (sid : String)
    (stock : ℚ) (d : Int) (n : Nat) :
    stockAfter I O sid stock d (n + 1) =
      stepStock I O sid (stockAfter I O sid stock d n) (d + n) := by
  induction n generalizing stock d with
  | zero => simp [stockAfter]
  | succ k ih =>
      show stockAfter I O sid (stepStock I O sid stock d) (d + 1) (k + 1) = _
      rw [ih]
      have : d + 1 + (k : Int) = d + ((k : Nat) + 1 : Nat) := by push_cast; ring
      rw [this]
      rfl

theorem skuWalkAux_length (I : List InEvent) (O : List OutEvent) (sid desc : String)
    (safety : ℚ) (stock : ℚ) (d : Int) (n : Nat) :
    (skuWalkAux I O sid desc safety stock d n).length = n := by
  induction n generalizing stock d with
  | zero => rfl
  | succ k ih => simp [skuWalkAux, ih]

theorem skuWalk_length (I : List InEvent) (O : List OutEvent) (start : Int)
    (days : Nat) (sku : SkuRow) : (skuWalk I O start days sku).length = days :=
  skuWalkAux_length ..

theorem skuWalkAux_get? (I : List InEvent) (O : List OutEvent) (sid desc : String)
    (safety : ℚ) (stock : ℚ) (d : Int) (n j : Nat) (hj : j < n) :
    (skuWalkAux I O sid desc safety stock d n).get? j =
      some (mkCell I O sid desc safety (d + j) (stockAfter I O sid stock d j)) := by
  induction n generalizing stock d j with
  | zero => omega
  | succ k ih =>
      cases j with
      | zero => simp [skuWalkAux, stockAfter]
      | succ i =>
          show (skuWalkAux I O sid desc safety (stepStock I O sid stock d) (d + 1) k).get? i = _
          rw [ih _ _ _ (by omega)]
          have : d + 1 + (i : Int) = d + ((i : Nat) + 1 : Nat) := by push_cast; ring
          rw [this]
          rfl

theorem skuWalk_getD (I : List InEvent) (O : List OutEvent) (start : Int)
    (days : Nat) (sku : SkuRow) (j : Nat) (hj : j < days) :
    (skuWalk I O start days sku).getD j default =
      mkCell I O sku.sku_id (skuDesc sku) sku.safety_threshold (start + j)
        (stockAfter I O sku.sku_id (carryForward sku I O start) start j) := by
  rw [List.getD_eq_getD_get?, skuWalk, skuWalkAux_get? _ _ _ _ _ _ _ _ _ hj]
  rfl

theorem calculate_inventory_length (skus : List SkuRow) (I : List InEvent)
    (O : List OutEvent) (start : Int) (days : Nat) :
    (calculate_inventory skus I O start days).length = skus.length * days := by
  induction skus with
  | nil => simp [calculate_inventory]
  | cons s rest ih =>
      show (skuWalk I O start days s ++ calculate_inventory rest I O start days).length = _
      rw [List.length_append, skuWalk_length, ih]
      simp [List.length_cons, Nat.succ_mul, Nat.add_comm]

theorem calculate_inventory_getD (skus : List SkuRow) (I : List InEvent)
    (O : List OutEvent) (start : Int) (days : Nat) (i j : Nat)
    (hi : i < skus.length) (hj : j < days) :
    (calculate_inventory skus I O start days).getD (i * days + j) default =
      (skuWalk I O start days (skus.getD i default)).getD j default := by
  induction skus generalizing i with
  | nil => simp at hi
  | cons s rest ih =>
      cases i with
      | zero =>
          show (skuWalk I O start days s ++ _).getD (0 * days + j) default = _
          rw [Nat.zero_mul, Nat.zero_add,
            List.getD_append _ _ _ _ (by rw [skuWalk_length]; exact hj)]
          rfl
      | succ i' =>
          show (skuWalk I O start days s ++ _).getD ((i' + 1) * days + j) default = _
          rw [List.getD_append_right _ _ _ _ (by rw [skuWalk_length]; nlinarith)]
          rw [skuWalk_length]
          have harith : (i' + 1) * days + j - days = i' * days + j := by
            have : (i' + 1) * days = i' * days + days := by ring
            omega
          rw [harith, ih i' (by simpa using hi)]
          rfl

theorem skuWalkAux_mem (I : List InEvent) (O : List OutEvent) (sid desc : String)
    (safety : ℚ) (stock : ℚ) (d : Int) (n : Nat) (c : Cell)
    (hc : c ∈ skuWalkAux I O sid desc safety stock d n) :
    ∃ d' s', c = mkCell I O sid desc safety d' s' := by
  induction n generalizing stock d with
  | zero => simp [skuWalkAux] at hc
  | succ k ih =>
      rw [skuWalkAux, List.mem_cons] at hc
      rcases hc with h | h
      · exact ⟨d, stock, h⟩
      · exact ih _ _ h

theorem statusOf_eq_RED_iff (safety q : ℚ) : statusOf safety q = Status.RED ↔ q < 0 := by
  unfold statusOf
  split_ifs with h1 h2 <;> simp_all

theorem statusOf_eq_AMBER_iff (safety q : ℚ) :
    statusOf safety q = Status.AMBER ↔ 0 ≤ q ∧ q < safety := by
  unfold statusOf
  split_ifs with h1 h2 <;> simp_all

theorem statusOf_eq_GREEN_iff (safety q : ℚ) :
    statusOf safety q = Status.GREEN ↔ 0 ≤ q ∧ safety ≤ q := by
  unfold statusOf
  split_ifs with h1 h2 <;> simp_all

theorem markerOf_both_iff (din dout : ℚ) :
    markerOf din dout = "▲▼" ↔ 0 < din ∧ 0 < dout := by
  unfold markerOf
  split_ifs with h1 h2 h3 <;> simp_all

theorem markerOf_in_only (din dout : ℚ) (h : 0 < din) (h2 : ¬ 0 < dout) :
    markerOf din dout = "▲" := by
  unfold markerOf
  split_ifs with h1 <;> simp_all

theorem markerOf_out_only (din dout : ℚ) (h : 0 < dout) (h2 : ¬ 0 < din) :
    markerOf din dout = "▼" := by
  unfold markerOf
  split_ifs <;> simp_all

theorem markerOf_none (din dout : ℚ) (h1 : din = 0) (h2 : dout = 0) :
    markerOf din dout = "" := by
  subst h1; subst h2
  unfold markerOf
  split_ifs with h1 h2 <;> simp_all

/-- C1: for every SKU (row `i`) and every day `j` of the projection window,
the reported stock level equals the previous day's level plus that SKU's
inbound quantities dated that day minus its outbound quantities dated that
day; day 0's predecessor is the carry-forward balance `stock_on_hand` plus
inbound strictly before `start_date` minus outbound strictly before
`start_date`. -/
theorem c1_stock_recurrence (skus : List SkuRow) (I : List InEvent) (O : List OutEvent)
    (start : Int) (days : Nat) (i j : Nat) (hi : i < skus.length) (hj : j < days) :
    ((calculate_inventory skus I O start days).getD (i * days + j) default).Stock =
      (if j = 0 then carryForward (skus.getD i default) I O start
       else ((calculate_inventory skus I O start days).getD (i * days + j - 1) default).Stock)
      + dayInSum I (skus.getD i default).sku_id (start + j)
      - dayOutSum O (skus.getD i default).sku_id (start + j) := by
  rw [calculate_inventory_getD skus I O start days i j hi hj,
    skuWalk_getD I O start days _ j hj]
  cases j with
  | zero => simp [mkCell, stockAfter]
  | succ k =>
      have hk : k < days := by omega
      have harith : i * days + (k + 1) - 1 = i * days + k := by omega
      rw [if_neg (by omega), harith,
        calculate_inventory_getD skus I O start days i k hi hk,
        skuWalk_getD I O start days _ k hk]
      simp only [mkCell]
      rw [stockAfter_succ]
      simp [stepStock]

theorem c1_stock_recurrence_witness :
    ((calculate_inventory [skuA] inbFix outFix 0 3).getD (0 * 3 + 1) default).Stock =
      (if (1 : Nat) = 0 then carryForward (([skuA] : List SkuRow).getD 0 default) inbFix outFix 0
       else ((calculate_inventory [skuA] inbFix outFix 0 3).getD (0 * 3 + 1 - 1) default).Stock)
      + dayInSum inbFix (([skuA] : List SkuRow).getD 0 default).sku_id (0 + 1)
      - dayOutSum outFix (([skuA] : List SkuRow).getD 0 default).sku_id (0 + 1) :=
  c1_stock_recurrence [skuA] inbFix outFix 0 3 0 1 (by decide) (by decide)

/-- C2: every cell of a SKU's day-walk is RED iff its stock is strictly
negative, AMBER iff its stock is at least 0 and strictly below the SKU's
safety_threshold, and GREEN iff its stock is at least 0 and at least the
safety_threshold (so, for the source's non-negative thresholds, GREEN iff
stock is at least the threshold); RED takes precedence over AMBER. -/
theorem c2_status_bands (I : List InEvent) (O : List OutEvent) (start : Int)
    (days : Nat) (sku : SkuRow) (c : Cell) (hc : c ∈ skuWalk I O start days sku) :
    (c.Status = Status.RED ↔ c.Stock < 0) ∧
    (c.Status = Status.AMBER ↔ 0 ≤ c.Stock ∧ c.Stock < sku.safety_threshold) ∧
    (c.Status = Status.GREEN ↔ 0 ≤ c.Stock ∧ sku.safety_threshold ≤ c.Stock) ∧
    (0 ≤ sku.safety_threshold →
      (c.Status = Status.GREEN ↔ sku.safety_threshold ≤ c.Stock)) := by
  rw [skuWalk] at hc
  obtain ⟨d', s', rfl⟩ := skuWalkAux_mem _ _ _ _ _ _ _ _ _ hc
  have hs : (mkCell I O sku.sku_id (skuDesc sku) sku.safety_threshold d' s').Status
      = statusOf sku.safety_threshold
        (mkCell I O sku.sku_id (skuDesc sku) sku.safety_threshold d' s').Stock := rfl
  rw [hs]
  refine ⟨statusOf_eq_RED_iff _ _, statusOf_eq_AMBER_iff _ _, statusOf_eq_GREEN_iff _ _, ?_⟩
  intro h0
  rw [statusOf_eq_GREEN_iff]
  exact ⟨fun h => h.2, fun h => ⟨le_trans h0 h, h⟩⟩

theorem c2_status_bands_witness :
    (((skuWalk inbFix outFix 0 3 skuA).getD 0 default).Status = Status.RED ↔
        ((skuWalk inbFix outFix 0 3 skuA).getD 0 default).Stock < 0) ∧
    (((skuWalk inbFix outFix 0 3 skuA).getD 0 default).Status = Status.AMBER ↔
        0 ≤ ((skuWalk inbFix outFix 0 3 skuA).getD 0 default).Stock ∧
          ((skuWalk inbFix outFix 0 3 skuA).getD 0 default).Stock < skuA.safety_threshold) ∧
    (((skuWalk inbFix outFix 0 3 skuA).getD 0 default).Status = Status.GREEN ↔
        0 ≤ ((skuWalk inbFix outFix 0 3 skuA).getD 0 default).Stock ∧
          skuA.safety_threshold ≤ ((skuWalk inbFix outFix 0 3 skuA).getD 0 default).Stock) ∧
    (0 ≤ skuA.safety_threshold →
      (((skuWalk inbFix outFix 0 3 skuA).getD 0 default).Status = Status.GREEN ↔
        skuA.safety_threshold ≤ ((skuWalk inbFix outFix 0 3 skuA).getD 0 default).Stock)) :=
  c2_status_bands inbFix outFix 0 3 skuA _
    (by
      rw [List.getD_eq_getElem _ _ (by rw [skuWalk_length]; omega)]
      exact List.getElem_mem _)

/-- C3: the projection has exactly `skus.length * days` cells; the cell at
flat index `i * days + j` belongs to the `i`-th SKU row and carries the
`j`-th date of the window, so cells are ordered by SKU table row order and,
within a SKU, by ascending date from `start_date`. -/
theorem c3_result_shape (skus : List SkuRow) (I : List InEvent) (O : List OutEvent)
    (start : Int) (days : Nat) :
    (calculate_inventory skus I O start days).length = skus.length * days ∧
    ∀ i j : Nat, i < skus.length → j < days →
      ((calculate_inventory skus I O start days).getD (i * days + j) default).SKU_ID
          = (skus.getD i default).sku_id ∧
      ((calculate_inventory skus I O start days).getD (i * days + j) default).Date
          = start + j := by
  refine ⟨calculate_inventory_length skus I O start days, ?_⟩
  intro i j hi hj
  rw [calculate_inventory_getD skus I O start days i j hi hj,
    skuWalk_getD I O start days _ j hj]
  exact ⟨rfl, rfl⟩

theorem c3_result_shape_witness :
    (calculate_inventory [skuA] inbFix outFix 0 3).length = ([skuA] : List SkuRow).length * 3 ∧
    (((calculate_inventory [skuA] inbFix outFix 0 3).getD (0 * 3 + 2) default).SKU_ID
        = (([skuA] : List SkuRow).getD 0 default).sku_id ∧
      ((calculate_inventory [skuA] inbFix outFix 0 3).getD (0 * 3 + 2) default).Date
        = 0 + 2) :=
  ⟨(c3_result_shape [skuA] inbFix outFix 0 3).1,
    (c3_result_shape [skuA] inbFix outFix 0 3).2 0 2 (by decide) (by decide)⟩

/-- C7: a horizon of 0 days yields an empty result for any SKU table, and an
empty SKU table yields an empty result for any horizon and event tables;
neither is an error. -/
theorem c7_degenerate_inputs :
    (∀ (skus : List SkuRow) (I : List InEvent) (O : List OutEvent) (start : Int),
        calculate_inventory skus I O start 0 = []) ∧
    (∀ (I : List InEvent) (O : List OutEvent) (start : Int) (days : Nat),
        calculate_inventory [] I O start days = []) := by
  constructor
  · intro skus I O start
    induction skus with
    | nil => rfl
    | cons s rest ih =>
        show skuWalk I O start 0 s ++ calculate_inventory rest I O start 0 = []
        rw [ih]
        rfl
  · intro I O start days
    rfl

/-- C8: a cell's change marker is the both-glyph exactly when the SKU's
same-day inbound and outbound sums are both strictly positive, the inbound
glyph when only the inbound sum is positive, the outbound glyph when only
the outbound sum is positive, and empty (none) when both sums are zero. -/
theorem c8_change_marker (I : List InEvent) (O : List OutEvent) (start : Int)
    (days : Nat) (sku : SkuRow) (j : Nat) (hj : j < days) :
    (((skuWalk I O start days sku).getD j default).Marker = "▲▼"
        ↔ 0 < dayInSum I sku.sku_id (start + j) ∧ 0 < dayOutSum O sku.sku_id (start + j)) ∧
    (0 < dayInSum I sku.sku_id (start + j) ∧ ¬ 0 < dayOutSum O sku.sku_id (start + j) →
        ((skuWalk I O start days sku).getD j default).Marker = "▲") ∧
    (0 < dayOutSum O sku.sku_id (start + j) ∧ ¬ 0 < dayInSum I sku.sku_id (start + j) →
        ((skuWalk I O start days sku).getD j default).Marker = "▼") ∧
    (dayInSum I sku.sku_id (start + j) = 0 ∧ dayOutSum O sku.sku_id (start + j) = 0 →
        ((skuWalk I O start days sku).getD j default).Marker = "") := by
  rw [skuWalk_getD I O start days sku j hj]
  simp only [mkCell]
  exact ⟨markerOf_both_iff _ _,
    fun h => markerOf_in_only _ _ h.1 h.2,
    fun h => markerOf_out_only _ _ h.1 h.2,
    fun h => markerOf_none _ _ h.1 h.2⟩

theorem c8_change_marker_witness :
    (((skuWalk inbFix outFix 0 3 skuA).getD 1 default).Marker = "▲▼"
        ↔ 0 < dayInSum inbFix skuA.sku_id (0 + 1) ∧ 0 < dayOutSum outFix skuA.sku_id (0 + 1)) ∧
    (0 < dayInSum inbFix skuA.sku_id (0 + 1) ∧ ¬ 0 < dayOutSum outFix skuA.sku_id (0 + 1) →
        ((skuWalk inbFix outFix 0 3 skuA).getD 1 default).Marker = "▲") ∧
    (0 < dayOutSum outFix skuA.sku_id (0 + 1) ∧ ¬ 0 < dayInSum inbFix skuA.sku_id (0 + 1) →
        ((skuWalk inbFix outFix 0 3 skuA).getD 1 default).Marker = "▼") ∧
    (dayInSum inbFix skuA.sku_id (0 + 1) = 0 ∧ dayOutSum outFix skuA.sku_id (0 + 1) = 0 →
        ((skuWalk inbFix outFix 0 3 skuA).getD 1 default).Marker = "") :=
  c8_change_marker inbFix outFix 0 3 skuA 1 (by decide)

/-- C9: the projection engine is deterministic — runs on componentwise
identical SKU tables, event tables, start date and horizon produce identical
result sequences; the embedding is a pure function of these five inputs and
reads no other state. -/
theorem c9_deterministic (skus₁ skus₂ : List SkuRow) (I₁ I₂ : List InEvent)
    (O₁ O₂ : List OutEvent) (s₁ s₂ : Int) (n₁ n₂ : Nat)
    (h₁ : skus₁ = skus₂) (h₂ : I₁ = I₂) (h₃ : O₁ = O₂) (h₄ : s₁ = s₂) (h₅ : n₁ = n₂) :
    calculate_inventory skus₁ I₁ O₁ s₁ n₁ = calculate_inventory skus₂ I₂ O₂ s₂ n₂ := by
  subst h₁; subst h₂; subst h₃; subst h₄; subst h₅
  rfl

theorem c9_deterministic_witness :
    calculate_inventory [skuA] inbFix outFix 0 3 = calculate_inventory [skuA] inbFix outFix 0 3 :=
  c9_deterministic [skuA] [skuA] inbFix inbFix outFix outFix 0 0 3 3 rfl rfl rfl rfl rfl

/-- C10: the engine never deduplicates SKU identifiers — a SKU table with the
same row twice produces two complete, identical day-walk blocks of `days`
cells each, one per row, rather than one merged trajectory. -/
theorem c10_duplicate_sku_rows (r : SkuRow) (rest : List SkuRow) (I : List InEvent)
    (O : List OutEvent) (start : Int) (days : Nat) :
    calculate_inventory (r :: r :: rest) I O start days =
      skuWalk I O start days r ++
        (skuWalk I O start days r ++ calculate_inventory rest I O start days) ∧
    (skuWalk I O start days r).length = days :=
  ⟨rfl, skuWalk_length I O start days r⟩

theorem foldl_min_le (xs : List ℚ) (x : ℚ) : ∀ y ∈ x :: xs, xs.foldl min x ≤ y := by
  induction xs generalizing x with
  | nil =>
      intro y hy
      rw [List.mem_singleton] at hy
      subst hy
      exact le_refl _
  | cons a as ih =>
      intro y hy
      rw [List.foldl_cons]
      rcases List.mem_cons.mp hy with h | h
      · subst h
        exact le_trans (ih (min y a) _ (List.mem_cons_self _ _)) (min_le_left _ _)
      · rcases List.mem_cons.mp h with h' | h'
        · subst h'
          exact le_trans (ih (min x y) _ (List.mem_cons_self _ _)) (min_le_right _ _)
        · exact ih (min x a) _ (List.mem_cons_of_mem _ h')

theorem foldl_min_mem (xs : List ℚ) (x : ℚ) : xs.foldl min x ∈ x :: xs := by
  induction xs generalizing x with
  | nil => exact List.mem_singleton.mpr rfl
  | cons a as ih =>
      rw [List.foldl_cons]
      rcases List.mem_cons.mp (ih (min x a)) with h | h
      · rcases min_choice x a with h' | h'
        · rw [h, h']
          exact List.mem_cons_self _ _
        · rw [h, h']
          exact List.mem_cons_of_mem _ (List.mem_cons_self _ _)
      · exact List.mem_cons_of_mem _ (List.mem_cons_of_mem _ h)

theorem listMin_le (l : List ℚ) (y : ℚ) (hy : y ∈ l) : listMin l ≤ y := by
  cases l with
  | nil => simp at hy
  | cons x xs => exact foldl_min_le xs x y hy

theorem listMin_mem (l : List ℚ) (h : l ≠ []) : listMin l ∈ l := by
  cases l with
  | nil => exact absurd rfl h
  | cons x xs => exact foldl_min_mem xs x

theorem dayInSum_cons_none (e : InEvent) (he : e.arrival_date = none)
    (I : List InEvent) (sid : String) (d : Int) :
    dayInSum (e :: I) sid d = dayInSum I sid d := by
  rw [dayInSum, dayInSum, List.filter_cons]
  simp [he, dateEq]

theorem pastInSum_cons_none (e : InEvent) (he : e.arrival_date = none)
    (I : List InEvent) (sid : String) (start : Int) :
    pastInSum (e :: I) sid start = pastInSum I sid start := by
  rw [pastInSum, pastInSum, List.filter_cons]
  simp [he, dateLt]

theorem dayOutSum_cons_none (e : OutEvent) (he : e.dispatch_date = none)
    (O : List OutEvent) (sid : String) (d : Int) :
    dayOutSum (e :: O) sid d = dayOutSum O sid d := by
  rw [dayOutSum, dayOutSum, List.filter_cons]
  simp [he, dateEq]

theorem pastOutSum_cons_none (e : OutEvent) (he : e.dispatch_date = none)
    (O : List OutEvent) (sid : String) (start : Int) :
    pastOutSum (e :: O) sid start = pastOutSum O sid start := by
  rw [pastOutSum, pastOutSum, List.filter_cons]
  simp [he, dateLt]

theorem skuWalkAux_cons_none_in (e : InEvent) (he : e.arrival_date = none)
    (I : List InEvent) (O : List OutEvent) (sid desc : String) (safety : ℚ)
    (stock : ℚ) (d : Int) (n : Nat) :
    skuWalkAux (e :: I) O sid desc safety stock d n =
      skuWalkAux I O sid desc safety stock d n := by
  induction n generalizing stock d with
  | zero => rfl
  | succ k ih =>
      have hd : ∀ dd, dayInSum (e :: I) sid dd = dayInSum I sid dd :=
        fun dd => dayInSum_cons_none e he I sid dd
      simp only [skuWalkAux, mkCell, stepStock, hd]
      rw [ih]

theorem skuWalkAux_cons_none_out (e : OutEvent) (he : e.dispatch_date = none)
    (I : List InEvent) (O : List OutEvent) (sid desc : String) (safety : ℚ)
    (stock : ℚ) (d : Int) (n : Nat) :
    skuWalkAux I (e :: O) sid desc safety stock d n =
      skuWalkAux I O sid desc safety stock d n := by
  induction n generalizing stock d with
  | zero => rfl
  | succ k ih =>
      have hd : ∀ dd, dayOutSum (e :: O) sid dd = dayOutSum O sid dd :=
        fun dd => dayOutSum_cons_none e he O sid dd
      simp only [skuWalkAux, mkCell, stepStock, hd]
      rw [ih]

theorem calculate_inventory_cons_none_in (skus : List SkuRow) (e : InEvent)
    (he : e.arrival_date = none) (I : List InEvent) (O : List OutEvent)
    (start : Int) (days : Nat) :
    calculate_inventory skus (e :: I) O start days =
      calculate_inventory skus I O start days := by
  induction skus with
  | nil => rfl
  | cons s rest ih =>
      show skuWalk (e :: I) O start days s ++ _ = skuWalk I O start days s ++ _
      rw [skuWalk, skuWalk, carryForward, carryForward,
        pastInSum_cons_none e he I s.sku_id start,
        skuWalkAux_cons_none_in e he I O s.sku_id (skuDesc s) s.safety_threshold _ _ _, ih]

theorem calculate_inventory_cons_none_out (skus : List SkuRow) (e : OutEvent)
    (he : e.dispatch_date = none) (I : List InEvent) (O : List OutEvent)
    (start : Int) (days : Nat) :
    calculate_inventory skus I (e :: O) start days =
      calculate_inventory skus I O start days := by
  induction skus with
  | nil => rfl
  | cons s rest ih =>
      show skuWalk I (e :: O) start days s ++ _ = skuWalk I O start days s ++ _
      rw [skuWalk, skuWalk, carryForward, carryForward,
        pastOutSum_cons_none e he O s.sku_id start,
        skuWalkAux_cons_none_out e he I O s.sku_id (skuDesc s) s.safety_threshold _ _ _, ih]

theorem summaryRowFor_Min (cells : List Cell) (k : String × String) :
    (summaryRowFor cells k).Min
      = listMin ((cells.filter fun c => decide (cellKey c = k)).map Cell.Stock) := rfl

theorem summaryRowFor_Status (cells : List Cell) (k : String × String) :
    (summaryRowFor cells k).Status
      = (if (cells.filter fun c => decide (cellKey c = k)).any
              (fun c => decide (c.Status = Status.RED)) then Status.RED
         else if (cells.filter fun c => decide (cellKey c = k)).any
              (fun c => decide (c.Status = Status.AMBER)) then Status.AMBER
         else Status.GREEN) := rfl

/-- C4: the month summary has exactly one row per (description, month) key
present among the cells — two SKUs sharing a description are merged — and
each row's minimum is the arithmetic minimum of its group's stock values
(attained by a group member and below or equal to every member), while its
status is RED iff some group cell is RED, AMBER iff none is RED but some is
AMBER, and GREEN iff the group has neither. -/
theorem c4_month_summary (cells : List Cell) :
    (∀ k : String × String,
        (k ∈ (summary_data cells).map fun r => (r.Description, r.Month_Label)) ↔
          k ∈ cells.map cellKey) ∧
    ((summary_data cells).map fun r => (r.Description, r.Month_Label)).Nodup ∧
    (∀ r ∈ summary_data cells,
        (∃ c ∈ summaryGroup cells r, c.Stock = r.Min) ∧
        (∀ c ∈ summaryGroup cells r, r.Min ≤ c.Stock) ∧
        (r.Status = Status.RED ↔ ∃ c ∈ summaryGroup cells r, c.Status = Status.RED) ∧
        (r.Status = Status.AMBER ↔
          (¬ ∃ c ∈ summaryGroup cells r, c.Status = Status.RED) ∧
            ∃ c ∈ summaryGroup cells r, c.Status = Status.AMBER) ∧
        (r.Status = Status.GREEN ↔
          (¬ ∃ c ∈ summaryGroup cells r, c.Status = Status.RED) ∧
            ¬ ∃ c ∈ summaryGroup cells r, c.Status = Status.AMBER)) := by
  have hmap : ((summary_data cells).map fun r => (r.Description, r.Month_Label))
      = (cells.map cellKey).dedup := by
    rw [summary_data, List.map_map]
    have hcomp : ((fun r : SummaryRow => (r.Description, r.Month_Label)) ∘ summaryRowFor cells)
        = id := by
      funext k
      rfl
    rw [hcomp, List.map_id]
  refine ⟨?_, ?_, ?_⟩
  · intro k
    rw [hmap]
    exact List.mem_dedup
  · rw [hmap]
    exact List.nodup_dedup _
  · intro r hr
    rw [summary_data, List.mem_map] at hr
    obtain ⟨k, hk, rfl⟩ := hr
    rw [List.mem_dedup, List.mem_map] at hk
    obtain ⟨c0, hc0, hkey⟩ := hk
    have hg : summaryGroup cells (summaryRowFor cells k)
        = cells.filter fun c => decide (cellKey c = k) := rfl
    have hc0g : c0 ∈ cells.filter fun c => decide (cellKey c = k) := by
      rw [List.mem_filter]
      exact ⟨hc0, by simp [hkey]⟩
    have hne : (cells.filter fun c => decide (cellKey c = k)).map Cell.Stock ≠ [] := by
      intro hemp
      rw [List.map_eq_nil_iff] at hemp
      rw [hemp] at hc0g
      simp at hc0g
    refine ⟨?_, ?_, ?_, ?_, ?_⟩
    · rw [hg, summaryRowFor_Min]
      obtain ⟨c, hc, hcs⟩ := List.mem_map.mp (listMin_mem _ hne)
      exact ⟨c, hc, hcs⟩
    · intro c hc
      rw [hg] at hc
      rw [summaryRowFor_Min]
      exact listMin_le _ _ (List.mem_map_of_mem Cell.Stock hc)
    · rw [hg, summaryRowFor_Status]
      split_ifs with h1 h2 <;> simp_all [List.any_eq_true] <;> tauto
    · rw [hg, summaryRowFor_Status]
      split_ifs with h1 h2 <;> simp_all [List.any_eq_true] <;> tauto
    · rw [hg, summaryRowFor_Status]
      split_ifs with h1 h2 <;> simp_all [List.any_eq_true]

theorem c4_month_summary_witness :
    (∃ c ∈ summaryGroup [cellFix1, cellFix2] ((summary_data [cellFix1, cellFix2]).getD 0 default),
        c.Stock = ((summary_data [cellFix1, cellFix2]).getD 0 default).Min) ∧
    (∀ c ∈ summaryGroup [cellFix1, cellFix2] ((summary_data [cellFix1, cellFix2]).getD 0 default),
        ((summary_data [cellFix1, cellFix2]).getD 0 default).Min ≤ c.Stock) ∧
    (((summary_data [cellFix1, cellFix2]).getD 0 default).Status = Status.RED ↔
        ∃ c ∈ summaryGroup [cellFix1, cellFix2] ((summary_data [cellFix1, cellFix2]).getD 0 default),
          c.Status = Status.RED) ∧
    (((summary_data [cellFix1, cellFix2]).getD 0 default).Status = Status.AMBER ↔
        (¬ ∃ c ∈ summaryGroup [cellFix1, cellFix2] ((summary_data [cellFix1, cellFix2]).getD 0 default),
            c.Status = Status.RED) ∧
          ∃ c ∈ summaryGroup [cellFix1, cellFix2] ((summary_data [cellFix1, cellFix2]).getD 0 default),
            c.Status = Status.AMBER) ∧
    (((summary_data [cellFix1, cellFix2]).getD 0 default).Status = Status.GREEN ↔
        (¬ ∃ c ∈ summaryGroup [cellFix1, cellFix2] ((summary_data [cellFix1, cellFix2]).getD 0 default),
            c.Status = Status.RED) ∧
          ¬ ∃ c ∈ summaryGroup [cellFix1, cellFix2] ((summary_data [cellFix1, cellFix2]).getD 0 default),
            c.Status = Status.AMBER) :=
  (c4_month_summary [cellFix1, cellFix2]).2.2 _
    (by
      rw [List.getD_eq_getElem _ _ (by decide)]
      exact List.getElem_mem _)

/-- C5 (amended): every cell's display string renders the running balance as
an integer when it is mathematically integral and with its fractional value
otherwise, then always appends a single separator space followed by the
change marker's glyph; with no marker the glyph is absent but the trailing
separator space remains (the f-string on line 106 always inserts the space). -/
theorem c5_display_format (I : List InEvent) (O : List OutEvent) (start : Int)
    (days : Nat) (sku : SkuRow) (c : Cell) (hc : c ∈ skuWalk I O start days sku) :
    c.Display = ratDisplay c.Stock ++ " " ++ c.Marker ∧
    (c.Stock.den = 1 → c.Display = toString c.Stock.num ++ " " ++ c.Marker) ∧
    (c.Stock.den ≠ 1 → c.Display = toString c.Stock ++ " " ++ c.Marker) := by
  rw [skuWalk] at hc
  obtain ⟨d', s', rfl⟩ := skuWalkAux_mem _ _ _ _ _ _ _ _ _ hc
  refine ⟨rfl, ?_, ?_⟩
  · intro h
    have h' : (s' + dayInSum I sku.sku_id d' - dayOutSum O sku.sku_id d').den = 1 := h
    show ratDisplay _ ++ " " ++ _ = _
    rw [ratDisplay, if_pos h']
    exact rfl
  · intro h
    have h' : ¬ (s' + dayInSum I sku.sku_id d' - dayOutSum O sku.sku_id d').den = 1 := h
    show ratDisplay _ ++ " " ++ _ = _
    rw [ratDisplay, if_neg h']
    exact rfl

/-- C5 counterexample to the claim as stated: a cell with no change marker
still has something appended after the rendered balance — the display is
"10 " (trailing separator space), not the bare rendered balance "10". -/
theorem c5_display_counterexample :
    ((skuWalk [] [] 0 1 skuA).getD 0 default).Marker = "" ∧
    ((skuWalk [] [] 0 1 skuA).getD 0 default).Display
      ≠ ratDisplay ((skuWalk [] [] 0 1 skuA).getD 0 default).Stock := by
  have h0 : (skuWalk [] [] 0 1 skuA).getD 0 default
      = mkCell [] [] "A" "Widget A" 5 0 (carryForward skuA [] [] 0) := by
    rw [skuWalk_getD [] [] 0 1 skuA 0 (by omega)]
    rfl
  rw [h0]
  constructor
  · simp [mkCell, dayInSum, dayOutSum, markerOf]
  · simp only [mkCell, dayInSum, dayOutSum, markerOf, ratDisplay, carryForward,
      pastInSum, pastOutSum, skuA]
    norm_num
    decide

theorem c5_display_format_witness :
    ((skuWalk inbFix outFix 0 3 skuA).getD 0 default).Display
        = ratDisplay ((skuWalk inbFix outFix 0 3 skuA).getD 0 default).Stock ++ " "
            ++ ((skuWalk inbFix outFix 0 3 skuA).getD 0 default).Marker ∧
    (((skuWalk inbFix outFix 0 3 skuA).getD 0 default).Stock.den = 1 →
        ((skuWalk inbFix outFix 0 3 skuA).getD 0 default).Display
          = toString ((skuWalk inbFix outFix 0 3 skuA).getD 0 default).Stock.num ++ " "
              ++ ((skuWalk inbFix outFix 0 3 skuA).getD 0 default).Marker) ∧
    (((skuWalk inbFix outFix 0 3 skuA).getD 0 default).Stock.den ≠ 1 →
        ((skuWalk inbFix outFix 0 3 skuA).getD 0 default).Display
          = toString ((skuWalk inbFix outFix 0 3 skuA).getD 0 default).Stock ++ " "
              ++ ((skuWalk inbFix outFix 0 3 skuA).getD 0 default).Marker) :=
  c5_display_format inbFix outFix 0 3 skuA _
    (by
      rw [List.getD_eq_getElem _ _ (by rw [skuWalk_length]; omega)]
      exact List.getElem_mem _)

/-- C6: the normalizer parses every declared numeric cell to its number,
coercing an unparsable cell to zero without error; it parses date cells
day-first (first component = day of month) and maps an unparsable date to
the `NaT` sentinel, which matches neither the strictly-before carry-forward
filter nor the equal-to-day filter — concretely, prepending an event whose
date is the sentinel leaves the whole projection unchanged. -/
theorem c6_normalizer :
    (∀ q : ℚ, parseNumeric (RawNum.num q) = q) ∧
    (∀ r : RawNum, r.parses = false → parseNumeric r = 0) ∧
    (∀ d m y : Nat, validDMY d m y = true →
        parseDate (RawDate.dmy d m y) = some (daysFromCivil y m d)) ∧
    (∀ s : String, parseDate (RawDate.noise s) = none) ∧
    (∀ t : Int, dateLt none t = false ∧ dateEq none t = false) ∧
    (∀ (skus : List SkuRow) (I : List InEvent) (O : List OutEvent) (start : Int)
        (days : Nat) (e : InEvent), e.arrival_date = none →
        calculate_inventory skus (e :: I) O start days
          = calculate_inventory skus I O start days) ∧
    (∀ (skus : List SkuRow) (I : List InEvent) (O : List OutEvent) (start : Int)
        (days : Nat) (e : OutEvent), e.dispatch_date = none →
        calculate_inventory skus I (e :: O) start days
          = calculate_inventory skus I O start days) := by
  refine ⟨fun q => rfl, ?_, ?_, fun s => rfl, fun t => ⟨rfl, rfl⟩, ?_, ?_⟩
  · intro r hr
    cases r with
    | num q => simp [RawNum.parses] at hr
    | noise s => rfl
  · intro d m y hv
    rw [parseDate, if_pos hv]
  · intro skus I O start days e he
    exact calculate_inventory_cons_none_in skus e he I O start days
  · intro skus I O start days e he
    exact calculate_inventory_cons_none_out skus e he I O start days

theorem c6_normalizer_witness :
    parseNumeric (RawNum.noise "N/A") = 0 ∧
    parseDate (RawDate.dmy 3 4 2025) = some (daysFromCivil 2025 4 3) ∧
    parseDate (RawDate.noise "TBD") = none ∧
    (dateLt none 0 = false ∧ dateEq none 0 = false) ∧
    calculate_inventory [skuA] (⟨"A", "POX", 7, none⟩ :: inbFix) outFix 0 3
      = calculate_inventory [skuA] inbFix outFix 0 3 ∧
    calculate_inventory [skuA] inbFix (⟨"A", "SOX", 7, none⟩ :: outFix) 0 3
      = calculate_inventory [skuA] inbFix outFix 0 3 :=
  ⟨c6_normalizer.2.1 (RawNum.noise "N/A") rfl,
    c6_normalizer.2.2.1 3 4 2025 (by decide),
    c6_normalizer.2.2.2.1 "TBD",
    c6_normalizer.2.2.2.2.1 0,
    c6_normalizer.2.2.2.2.2.1 [skuA] inbFix outFix 0 3 ⟨"A", "POX", 7, none⟩ rfl,
    c6_normalizer.2.2.2.2.2.2 [skuA] inbFix outFix 0 3 ⟨"A", "SOX", 7, none⟩ rfl⟩

end InvDash
